import Mathlib

/-!
Verification development for the django-pgwatch notification dispatch engine
and its repository companions (example consumers, test-matrix harness).

The engine itself (OutboxStore, ConsumerRegistry, ReplayCoordinator,
Dispatcher) is modelled from the specification, since only its callers and
examples ship in the repository tree under scrutiny; the example consumers
(`example_project/consumers.py`) and the docker test matrix
(`test-matrix-docker.py`) are embedded directly from their Python source.
-/

namespace PgWatch

/-- Association-list lookup with a default value, used for per-channel and
per-(consumer, channel) cursors. -/
def lookupD {α β : Type} [DecidableEq α] (l : List (α × β)) (k : α) (d : β) : β :=
  match l with
  | [] => d
  | (k', v) :: rest => if k' = k then v else lookupD rest k d

/-- Association-list update (insert or overwrite). -/
def setK {α β : Type} [DecidableEq α] (l : List (α × β)) (k : α) (v : β) : List (α × β) :=
  match l with
  | [] => [(k, v)]
  | (k', v') :: rest => if k' = k then (k, v) :: rest else (k', v') :: setK rest k v

/-- Modelled from the spec: a persisted Notification (section 3 of the design).
`sequence` is a per-channel monotonically increasing integer assigned by the
OutboxStore at write time; `payload` is opaque structured data, kept as a type
parameter. `created_at` plays no role in any claim and is omitted. -/
structure Notification (P : Type) where
  sequence : Nat
  channel : String
  payload : P
deriving DecidableEq, Repr

/-- Modelled from the spec: the durable state of the engine, missing from the
repository sources. `outbox` is the OutboxStore's append-only sequenced log;
`maxAssigned` records, per channel, the highest sequence ever assigned (never
lowered, even by trimming, so sequence numbers are never reused);
`checkpoints` maps (consumer_id, channel) to `last_delivered_sequence`, with
absence read as 0 — the `EARLIEST` floor; `registrations` maps consumer_id to
its subscribed channels; `delivered` is the chronological log of delivery
attempts (consumer_id paired with the notification handed to its callback). -/
structure EngineState (P : Type) where
  outbox : List (Notification P)
  maxAssigned : List (String × Nat)
  checkpoints : List ((String × String) × Nat)
  registrations : List (String × List String)
  delivered : List (String × Notification P)
deriving DecidableEq, Repr

/-- Modelled from the spec: `max_sequence(channel)` of the OutboxStore. -/
def max_sequence {P : Type} (s : EngineState P) (c : String) : Nat :=
  lookupD s.maxAssigned c 0

/-- Modelled from the spec: `checkpoint(consumer_id, channel)` of the
ConsumerRegistry; a consumer registered with `replay_from = EARLIEST` starts
from the floor 0, which is also the default for an absent entry. -/
def checkpoint {P : Type} (s : EngineState P) (cid c : String) : Nat :=
  lookupD s.checkpoints (cid, c) 0

/-- Modelled from the spec: `publish(channel, payload) -> sequence`, the
ingestion entry point, which appends to the OutboxStore assigning the next
sequence atomically with the durability write. Returns the new state and the
assigned sequence. -/
def publish {P : Type} (s : EngineState P) (c : String) (p : P) : EngineState P × Nat :=
  let sq := max_sequence s c + 1
  ({ s with
      outbox := s.outbox ++ [⟨sq, c, p⟩],
      maxAssigned := setK s.maxAssigned c sq }, sq)

/-- Modelled from the spec: `read_range(channel, after_sequence, limit)` of the
OutboxStore, ascending by sequence. The batched loop of the ReplayCoordinator
reads successive limited ranges until caught up; the model collapses that loop
into one unlimited read. -/
def read_range {P : Type} (s : EngineState P) (c : String) (after : Nat) :
    List (Notification P) :=
  s.outbox.filter (fun n => decide (n.channel = c ∧ after < n.sequence))

/-- Modelled from the spec: the minimum checkpoint across all registered
consumers subscribed to a channel (the trim safety boundary); 0 when no
consumer is registered on the channel, so that trimming then removes nothing. -/
def min_checkpoint {P : Type} (s : EngineState P) (c : String) : Nat :=
  match (s.registrations.filter (fun r => decide (c ∈ r.2))).map (fun r => r.1) with
  | [] => 0
  | cid :: rest => rest.foldl (fun m x => min m (checkpoint s x c)) (checkpoint s cid c)

/-- Modelled from the spec: `trim(channel, before_sequence)` removes
notifications of the channel older than the retention boundary, but only those
whose sequence is at or below the minimum checkpoint across all registered
consumers on that channel. -/
def trim {P : Type} (s : EngineState P) (c : String) (before : Nat) : EngineState P :=
  { s with
      outbox := s.outbox.filter (fun n =>
        decide (¬(n.channel = c ∧ n.sequence < before ∧
          n.sequence ≤ min_checkpoint s c))) }

/-- Modelled from the spec: the error raised on a checkpoint monotonicity
violation, carrying the current checkpoint and the offending sequence. -/
inductive CheckpointError where
  | monotonicityViolation (current given : Nat)
deriving DecidableEq, Repr

/-- Modelled from the spec: `advance_checkpoint(consumer_id, channel, sequence)`
fails with `CheckpointError` if `sequence < current checkpoint`, leaving the
state untouched; otherwise it durably sets the cursor. -/
def advance_checkpoint {P : Type} (s : EngineState P) (cid c : String) (sq : Nat) :
    Except CheckpointError (EngineState P) :=
  let cur := checkpoint s cid c
  if sq < cur then
    Except.error (CheckpointError.monotonicityViolation cur sq)
  else
    Except.ok { s with checkpoints := setK s.checkpoints (cid, c) sq }

/-- Modelled from the spec: the Dispatcher's delivery loop over a pending
backlog, for one consumer on one channel. Each notification is attempted in
ascending sequence order; a successful callback advances the running
checkpoint to that sequence, while the first failure is recorded as an attempt
but stops the loop with the checkpoint not advanced past the failed sequence.
Returns the list of attempted notifications and the final checkpoint. -/
def deliverLoop {P : Type} (cb : Notification P → Bool) :
    List (Notification P) → Nat → List (Notification P) × Nat
  | [], k => ([], k)
  | n :: rest, k =>
    if cb n then
      let r := deliverLoop cb rest n.sequence
      (n :: r.1, r.2)
    else ([n], k)

/-- Modelled from the spec: `catch_up(consumer_id)` restricted to one channel —
the ReplayCoordinator reads everything past the consumer's checkpoint from the
OutboxStore and feeds it through the Dispatcher, durably advancing the
checkpoint after successful deliveries and logging every attempt. -/
def catch_up {P : Type} (cb : String → Notification P → Bool) (cid c : String)
    (s : EngineState P) : EngineState P :=
  let k := checkpoint s cid c
  let pend := read_range s c k
  let r := deliverLoop (cb cid) pend k
  { s with
      checkpoints := setK s.checkpoints (cid, c) r.2,
      delivered := s.delivered ++ r.1.map (fun n => (cid, n)) }

/-- Modelled from the spec: the externally visible events of a run — a publish
to a channel, or a consumer catching up on a channel (covering both replay on
registration/reconnect and live delivery, which flow through the same
Dispatcher path). -/
inductive Event (P : Type) where
  | publish (c : String) (p : P)
  | catchUp (cid c : String)
deriving DecidableEq, Repr

/-- Modelled from the spec: one step of the engine. The consumer callbacks are
given as a function from consumer_id, returning success or failure of the
consumer's `handle` for a notification. -/
def step {P : Type} (cb : String → Notification P → Bool) (s : EngineState P) :
    Event P → EngineState P
  | Event.publish c p => (publish s c p).1
  | Event.catchUp cid c => catch_up cb cid c s

/-- Modelled from the spec: the empty initial engine state; every consumer's
checkpoint reads as 0, i.e. registered from `EARLIEST`. -/
def initState (P : Type) : EngineState P :=
  { outbox := [], maxAssigned := [], checkpoints := [], registrations := [], delivered := [] }

/-- Modelled from the spec: a run of the engine over a trace of events. -/
def run {P : Type} (cb : String → Notification P → Bool) (t : List (Event P)) :
    EngineState P :=
  t.foldl (step cb) (initState P)

/-- Sequences persisted on a channel, in log order. -/
def chanSeqs {P : Type} (s : EngineState P) (c : String) : List Nat :=
  (s.outbox.filter (fun n => decide (n.channel = c))).map (fun n => n.sequence)

/-- Sequences attempted for a consumer on a channel, in delivery order. -/
def deliveredSeqs {P : Type} (s : EngineState P) (cid c : String) : List Nat :=
  (s.delivered.filter (fun x => decide (x.1 = cid ∧ x.2.channel = c))).map
    (fun x => x.2.sequence)

/-- Reachability invariant of the engine: per channel, the persisted log holds
exactly the sequences 1 .. max_sequence in order; every checkpoint is at most
the channel's maximum; and a consumer whose callback never fails has been
handed exactly the sequences 1 .. its checkpoint, in order. -/
structure Inv {P : Type} (cb : String → Notification P → Bool) (s : EngineState P) : Prop where
  seqs : ∀ c, chanSeqs s c = List.range' 1 (max_sequence s c)
  ckpt_le : ∀ cid c, checkpoint s cid c ≤ max_sequence s c
  good : ∀ cid c, (∀ n, cb cid n = true) →
    deliveredSeqs s cid c = List.range' 1 (checkpoint s cid c)

/-- Concrete engine state used to exercise the engine theorems: two
notifications persisted on channel `ch`, consumers `a` (checkpoint 1) and `b`
(checkpoint 2) registered on it. -/
def exampleState : EngineState Nat :=
  { outbox := [⟨1, "ch", 10⟩, ⟨2, "ch", 20⟩],
    maxAssigned := [("ch", 2)],
    checkpoints := [(("a", "ch"), 1), (("b", "ch"), 2)],
    registrations := [("a", ["ch"]), ("b", ["ch"])],
    delivered := [] }

/-- Callback assignment under which every consumer succeeds on every
notification. -/
def cbAll : String → Notification Nat → Bool := fun _ _ => true

end PgWatch

namespace ExampleConsumers

/-- Python dict with string keys and string values, as carried in the
`old_data` and `new_data` sub-payloads of a database-change notification. -/
abbrev PyDict := List (String × String)

/-- Python exception surfaced by the example consumer code. -/
inductive PyError where
  | attributeError (msg : String)
deriving DecidableEq, Repr

/-- Modelled from the spec: NotificationHandler, the ephemeral per-delivery
wrapper (design section 3). Its classification accessors are pure functions of
the payload that extract the reserved database-change fields when present and
signal absence (`none`, Python `None`) otherwise; the model carries the
classified fields directly. -/
structure Handler where
  channel : String
  is_replay : Bool
  table : Option String
  action : Option String
  record_id : Option Int
  old_data : Option PyDict
  new_data : Option PyDict
deriving DecidableEq, Repr

/-- Modelled from the spec: `get_table()` accessor of NotificationHandler. -/
def Handler.get_table (h : Handler) : Option String := h.table

/-- Modelled from the spec: `get_action()` accessor of NotificationHandler. -/
def Handler.get_action (h : Handler) : Option String := h.action

/-- Modelled from the spec: `get_record_id()` accessor of NotificationHandler. -/
def Handler.get_record_id (h : Handler) : Option Int := h.record_id

/-- Modelled from the spec: `get_old_data()` accessor of NotificationHandler. -/
def Handler.get_old_data (h : Handler) : Option PyDict := h.old_data

/-- Modelled from the spec: `get_new_data()` accessor of NotificationHandler. -/
def Handler.get_new_data (h : Handler) : Option PyDict := h.new_data

/-- Python `d.get(key)` where `d` may be `None`: dereferencing `None` raises
AttributeError, while `.get` on a present dict returns the value or `None`. -/
def pyGet (d : Option PyDict) (key : String) : Except PyError (Option String) :=
  match d with
  | none => Except.error (PyError.attributeError "NoneType has no attribute get")
  | some l => Except.ok (l.lookup key)

/-- Python `a or b` on two optional dicts: `None` and the empty dict are
falsy, so they fall through to the right operand. -/
def pyOr (a b : Option PyDict) : Option PyDict :=
  match a with
  | none => b
  | some d => if d.isEmpty then b else some d

/-- Observable output of UserChangeConsumer (its prints and the simulated
welcome email), in emission order. -/
inductive UserOutput where
  | newUser (username : Option String)
  | welcomeEmail (email : Option String)
  | emailChanged (username : Option String)
  | userDeleted (username : Option String)
deriving DecidableEq, Repr

namespace UserChangeConsumer

/-- Embedding of `UserChangeConsumer.consumer_id` (consumers.py line 36). -/
def consumer_id : String := "user_change_consumer"

/-- Embedding of `UserChangeConsumer.channels` (consumers.py line 37). -/
def channels : List String := ["data_change"]

/-- Embedding of `UserChangeConsumer.handle_notification` (consumers.py lines
39-59), with `send_welcome_email` (lines 61-63) inlined as its observable
output. Python exceptions are `Except.error`; evaluation order of the
`dict.get` dereferences follows the source. -/
def handle_notification (h : Handler) : Except PyError (List UserOutput) :=
  if h.get_table ≠ some "auth_user" then Except.ok []
  else
    let action := h.get_action
    let user_data := pyOr h.get_new_data h.get_old_data
    if action = some "INSERT" then do
      let u ← pyGet user_data "username"
      let e ← pyGet user_data "email"
      Except.ok [UserOutput.newUser u, UserOutput.welcomeEmail e]
    else if action = some "UPDATE" then do
      let oldEmail ← pyGet h.get_old_data "email"
      let newEmail ← pyGet h.get_new_data "email"
      if oldEmail ≠ newEmail then do
        let un ← pyGet h.get_new_data "username"
        Except.ok [UserOutput.emailChanged un]
      else Except.ok []
    else if action = some "DELETE" then do
      let u ← pyGet user_data "username"
      Except.ok [UserOutput.userDeleted u]
    else Except.ok []

end UserChangeConsumer

/-- Observable output of AnalyticsConsumer: a tracked database change, a
tracked user event, or the caught-and-logged failure message. -/
inductive AnalyticsOutput where
  | databaseChange (table action : Option String) (record_id : Option Int)
  | userEvent
  | trackingFailed (e : PyError)
deriving DecidableEq, Repr

namespace AnalyticsConsumer

/-- Embedding of `AnalyticsConsumer.consumer_id` (consumers.py line 99). -/
def consumer_id : String := "analytics_consumer"

/-- Embedding of `AnalyticsConsumer.channels` (consumers.py line 100). -/
def channels : List String := ["data_change", "user_events"]

/-- Embedding of `AnalyticsConsumer.track_database_change` (consumers.py lines
113-122): builds and prints the event record from the handler accessors. -/
def track_database_change (h : Handler) : Except PyError (List AnalyticsOutput) :=
  Except.ok [AnalyticsOutput.databaseChange h.get_table h.get_action h.get_record_id]

/-- Embedding of `AnalyticsConsumer.track_user_event` (consumers.py lines
124-127). -/
def track_user_event (_h : Handler) : Except PyError (List AnalyticsOutput) :=
  Except.ok [AnalyticsOutput.userEvent]

/-- Embedding of `AnalyticsConsumer.handle_notification` (consumers.py lines
102-111). The two tracking methods are parameters so that the embedding covers
any exception they may raise (including from the handler accessors they call);
the `try`/`except Exception` wrapper catches the error and emits the failure
print instead of re-raising. -/
def handle_notification (tdb tue : Handler → Except PyError (List AnalyticsOutput))
    (h : Handler) : Except PyError (List AnalyticsOutput) :=
  match
    (if h.channel = "data_change" then tdb h
     else if h.channel = "user_events" then tue h
     else Except.ok []) with
  | Except.ok out => Except.ok out
  | Except.error e => Except.ok [AnalyticsOutput.trackingFailed e]

end AnalyticsConsumer

/-- Observable output of a table-monitor consumer (its single print). -/
inductive MonitorOutput where
  | monitor (table : String) (action : Option String) (record_id : Option Int)
deriving DecidableEq, Repr

/-- Registration record of a dynamically created consumer: identity, channel
subscriptions and callback. -/
structure ConsumerDef where
  consumer_id : String
  channels : List String
  handle : Handler → List MonitorOutput

/-- Embedding of `create_table_monitor` (consumers.py lines 156-170): the
factory returns a consumer class whose id is `table_name + "_monitor"`, whose
channels are `["data_change"]`, and whose `handle_notification` prints the
monitor line exactly when the handler's table equals `table_name`. -/
def create_table_monitor (table_name : String) : ConsumerDef :=
  { consumer_id := table_name ++ "_monitor",
    channels := ["data_change"],
    handle := fun h =>
      if h.get_table = some table_name then
        [MonitorOutput.monitor table_name h.get_action h.get_record_id]
      else [] }

end ExampleConsumers

namespace TestMatrix

/-- Embedding of `MATRIX` (test-matrix-docker.py lines 13-18). -/
def MATRIX : List (String × String) :=
  [("3.9", "4.2"),
   ("3.10", "4.2"), ("3.10", "5.0"), ("3.10", "5.1"),
   ("3.11", "4.2"), ("3.11", "5.0"), ("3.11", "5.1"),
   ("3.12", "4.2"), ("3.12", "5.0"), ("3.12", "5.1")]

/-- Python `subprocess.CalledProcessError`, carrying the exit status and the
captured output streams (`None` when output was not captured). -/
inductive CalledProcessError where
  | mk (returncode : Int) (stdout stderr : Option String)
deriving DecidableEq, Repr

/-- Python `subprocess.CompletedProcess`, as returned by `subprocess.run`. -/
structure CompletedProcess where
  returncode : Int
  stdout : Option String
  stderr : Option String
deriving DecidableEq, Repr

/-- Embedding of `subprocess.run(cmd, shell=True, capture_output=capture,
text=True, check=True)`: `world` gives each command's exit status, stdout text
and stderr text; with `check=True` a nonzero exit raises CalledProcessError,
and the output fields are `None` unless captured. -/
def subprocess_run (world : String → Int × String × String) (cmd : String)
    (capture : Bool) : Except CalledProcessError CompletedProcess :=
  let r := world cmd
  let so := if capture then some r.2.1 else none
  let se := if capture then some r.2.2 else none
  if r.1 = 0 then Except.ok ⟨r.1, so, se⟩
  else Except.error (CalledProcessError.mk r.1 so se)

/-- Embedding of `run_cmd` (test-matrix-docker.py lines 20-28): the
CalledProcessError from the checked run is caught and turned into a `False`
triple with `e.stdout`/`e.stderr` when capturing and empty strings when not.
The Python function is named run_cmd; that spelling is a reserved command
elaboration keyword in Lean, so the embedding is named `runCmd`. -/
def runCmd (world : String → Int × String × String) (cmd : String)
    (capture : Bool) : Bool × Option String × Option String :=
  match subprocess_run world cmd capture with
  | Except.ok r => (true, r.stdout, r.stderr)
  | Except.error (CalledProcessError.mk _ so se) =>
    (false, if capture then so else some "", if capture then se else some "")

/-- Embedding of the matrix loop of `main` (test-matrix-docker.py lines
132-139): `test_combination` is invoked for each pair in order and its result
recorded; a failure does not stop the loop. -/
def mainLoop (test : String → String → Bool) :
    List (String × String) → List ((String × String) × Bool)
  | [] => []
  | pr :: rest => (pr, test pr.1 pr.2) :: mainLoop test rest

/-- Embedding of `main` (test-matrix-docker.py lines 121-160). `pgCheck`
abstracts the initial PostgreSQL probe and `test` abstracts
`test_combination`. Returns the list of (python, django) pairs
`test_combination` was invoked on, in order, together with main's boolean
return value (`passed == len(results)`; the results dict keys are the matrix
pairs, which are pairwise distinct, so the dict is modelled as the list of
loop records). -/
def main (pgCheck : Bool) (test : String → String → Bool) :
    List (String × String) × Bool :=
  if pgCheck then
    (let results := mainLoop test MATRIX
     (results.map (fun x => x.1),
      decide ((results.filter (fun x => x.2)).length = results.length)))
  else ([], false)

end TestMatrix

namespace PgWatch

theorem lookupD_setK_self {α β : Type} [DecidableEq α] (l : List (α × β)) (k : α) (v d : β) :
    lookupD (setK l k v) k d = v := by
  induction l with
  | nil => simp [setK, lookupD]
  | cons hd tl ih =>
    obtain ⟨k', v'⟩ := hd
    by_cases h : k' = k
    · simp [setK, h, lookupD]
    · simp [setK, h, lookupD, ih]

theorem lookupD_setK_ne {α β : Type} [DecidableEq α] (l : List (α × β)) (k k' : α) (v d : β)
    (h : k ≠ k') : lookupD (setK l k v) k' d = lookupD l k' d := by
  induction l with
  | nil => simp [setK, lookupD, h]
  | cons hd tl ih =>
    obtain ⟨k₀, v₀⟩ := hd
    by_cases h₀ : k₀ = k
    · subst h₀
      simp [setK, lookupD, h]
    · simp [setK, h₀, lookupD, ih]

theorem mem_read_range {P : Type} {s : EngineState P} {c : String} {k : Nat}
    {n : Notification P} (h : n ∈ read_range s c k) :
    n ∈ s.outbox ∧ n.channel = c ∧ k < n.sequence := by
  unfold read_range at h
  rw [List.mem_filter] at h
  simpa using h

/-- C3: after `trim(c, S)`, every persisted notification on channel c whose
sequence exceeds the minimum checkpoint across all registered consumers on c
is still present in the OutboxStore — trim only removes notifications at or
below that minimum checkpoint. -/
theorem trim_preserves_above_min_checkpoint {P : Type} (s : EngineState P) (c : String)
    (S : Nat) (n : Notification P) (hn : n ∈ s.outbox) (hch : n.channel = c)
    (hseq : min_checkpoint s c < n.sequence) :
    n ∈ (trim s c S).outbox := by
  unfold trim
  rw [List.mem_filter]
  refine ⟨hn, ?_⟩
  simp only [decide_eq_true_eq]
  intro hx
  omega

theorem trim_preserves_above_min_checkpoint_witness :
    ((⟨2, "ch", 20⟩ : Notification Nat) ∈ exampleState.outbox ∧
      (⟨2, "ch", 20⟩ : Notification Nat).channel = "ch" ∧
      min_checkpoint exampleState "ch" < (⟨2, "ch", 20⟩ : Notification Nat).sequence) ∧
    (⟨2, "ch", 20⟩ : Notification Nat) ∈ (trim exampleState "ch" 5).outbox :=
  ⟨⟨by decide, by decide, by decide⟩,
    trim_preserves_above_min_checkpoint exampleState "ch" 5 ⟨2, "ch", 20⟩
      (by decide) (by decide) (by decide)⟩

/-- C5: for every channel c, payload p and well-formed prior store state (no
persisted sequence on c above the channel's assigned maximum), `publish(c, p)`
followed immediately by `read_range(c, 0, ∞)` yields an entry whose payload is
p and whose sequence strictly exceeds every sequence previously assigned on c
(in particular every sequence still persisted on c). -/
theorem publish_read_range_round_trip {P : Type} (s : EngineState P) (c : String) (p : P)
    (hwf : ∀ n ∈ s.outbox, n.channel = c → n.sequence ≤ max_sequence s c) :
    ∃ n ∈ read_range (publish s c p).1 c 0,
      n.payload = p ∧ max_sequence s c < n.sequence ∧
      ∀ m ∈ s.outbox, m.channel = c → m.sequence < n.sequence := by
  refine ⟨⟨max_sequence s c + 1, c, p⟩, ?_, rfl, ?_, ?_⟩
  · unfold read_range publish
    rw [List.mem_filter]
    constructor
    · simp
    · simp
  · show max_sequence s c < max_sequence s c + 1
    omega
  · intro m hm hmc
    have := hwf m hm hmc
    show m.sequence < max_sequence s c + 1
    omega

theorem publish_read_range_round_trip_witness :
    (∀ n ∈ exampleState.outbox, n.channel = "ch" → n.sequence ≤ max_sequence exampleState "ch") ∧
    ∃ n ∈ read_range (publish exampleState "ch" 30).1 "ch" 0,
      n.payload = 30 ∧ max_sequence exampleState "ch" < n.sequence ∧
      ∀ m ∈ exampleState.outbox, m.channel = "ch" → m.sequence < n.sequence :=
  ⟨by decide, publish_read_range_round_trip exampleState "ch" 30 (by decide)⟩

theorem deliverLoop_snd_eq_or_mem {P : Type} (cb : Notification P → Bool)
    (l : List (Notification P)) (k : Nat) :
    (deliverLoop cb l k).2 = k ∨
      (deliverLoop cb l k).2 ∈ l.map (fun n => n.sequence) := by
  induction l generalizing k with
  | nil => exact Or.inl rfl
  | cons n rest ih =>
    by_cases h : cb n = true
    · simp only [deliverLoop, h, if_true]
      rcases ih n.sequence with h1 | h1
      · right
        rw [h1]
        simp
      · right
        simp only [List.map_cons, List.mem_cons]
        exact Or.inr h1
    · simp only [deliverLoop, h, if_false]
      exact Or.inl rfl

theorem checkpoint_step_mono {P : Type} (cb : String → Notification P → Bool)
    (s : EngineState P) (e : Event P) (cid c : String) :
    checkpoint s cid c ≤ checkpoint (step cb s e) cid c := by
  cases e with
  | publish c' p =>
    show checkpoint s cid c ≤ lookupD (publish s c' p).1.checkpoints (cid, c) 0
    exact Nat.le_refl _
  | catchUp cid' c' =>
    by_cases hk : ((cid' : String), c') = ((cid : String), c)
    · obtain ⟨h1, h2⟩ := Prod.mk.injEq .. ▸ hk
      subst h1; subst h2
      show checkpoint s cid' c' ≤
        lookupD (setK s.checkpoints (cid', c')
          (deliverLoop (cb cid') (read_range s c' (checkpoint s cid' c'))
            (checkpoint s cid' c')).2) (cid', c') 0
      rw [lookupD_setK_self]
      rcases deliverLoop_snd_eq_or_mem (cb cid')
          (read_range s c' (checkpoint s cid' c')) (checkpoint s cid' c') with h1 | h1
      · omega
      · rw [List.mem_map] at h1
        obtain ⟨n, hn, hseq⟩ := h1
        have := (mem_read_range hn).2.2
        omega
    · show checkpoint s cid c ≤
        lookupD (setK s.checkpoints (cid', c') _) (cid, c) 0
      rw [lookupD_setK_ne _ _ _ _ _ hk]
      exact Nat.le_refl _

theorem run_append_single {P : Type} (cb : String → Notification P → Bool)
    (t : List (Event P)) (e : Event P) :
    run cb (t ++ [e]) = step cb (run cb t) e := by
  unfold run
  rw [List.foldl_append]
  rfl

/-- C4: `advance_checkpoint(consumer_id, channel, sequence)` fails with
CheckpointError exactly when the sequence is below the current checkpoint for
that (consumer_id, channel), touching no state in that case (the error carries
no successor state, so the caller keeps the old one), and on success sets the
checkpoint to the given sequence while leaving the log and delivery history
alone; and over any engine run, `last_delivered_sequence` is monotonically
non-decreasing. -/
theorem advance_checkpoint_monotonicity {P : Type} (s : EngineState P) (cid c : String)
    (sq : Nat) (cb : String → Notification P → Bool) (t : List (Event P)) (e : Event P) :
    ((∃ err, advance_checkpoint s cid c sq = Except.error err) ↔
      sq < checkpoint s cid c) ∧
    (sq < checkpoint s cid c →
      advance_checkpoint s cid c sq =
        Except.error (CheckpointError.monotonicityViolation (checkpoint s cid c) sq)) ∧
    (checkpoint s cid c ≤ sq →
      ∃ s', advance_checkpoint s cid c sq = Except.ok s' ∧
        checkpoint s' cid c = sq ∧ s'.outbox = s.outbox ∧
        s'.delivered = s.delivered) ∧
    checkpoint (run cb t) cid c ≤ checkpoint (run cb (t ++ [e])) cid c := by
  refine ⟨⟨?_, ?_⟩, ?_, ?_, ?_⟩
  · intro ⟨err, herr⟩
    by_contra hlt
    simp only [advance_checkpoint, if_neg hlt] at herr
    exact Except.noConfusion herr
  · intro hlt
    exact ⟨CheckpointError.monotonicityViolation (checkpoint s cid c) sq,
      by simp only [advance_checkpoint, if_pos hlt]⟩
  · intro hlt
    simp only [advance_checkpoint, if_pos hlt]
  · intro hle
    have hnl : ¬ sq < checkpoint s cid c := by omega
    refine ⟨{ s with checkpoints := setK s.checkpoints (cid, c) sq }, ?_, ?_, rfl, rfl⟩
    · simp only [advance_checkpoint, if_neg hnl]
    · show lookupD (setK s.checkpoints (cid, c) sq) (cid, c) 0 = sq
      exact lookupD_setK_self _ _ _ _
  · rw [run_append_single]
    exact checkpoint_step_mono cb (run cb t) e cid c

theorem advance_checkpoint_monotonicity_witness :
    (checkpoint exampleState "a" "ch" ≤ 5 ∧
      ∃ s', advance_checkpoint exampleState "a" "ch" 5 = Except.ok s' ∧
        checkpoint s' "a" "ch" = 5 ∧ s'.outbox = exampleState.outbox ∧
        s'.delivered = exampleState.delivered) ∧
    ((∃ err, advance_checkpoint exampleState "a" "ch" 0 = Except.error err) ↔
      0 < checkpoint exampleState "a" "ch") ∧
    checkpoint (run cbAll [Event.publish "ch" 7]) "a" "ch" ≤
      checkpoint (run cbAll ([Event.publish "ch" 7] ++ [Event.catchUp "a" "ch"])) "a" "ch" :=
  ⟨⟨by decide,
     (advance_checkpoint_monotonicity exampleState "a" "ch" 5 cbAll
       [Event.publish "ch" 7] (Event.catchUp "a" "ch")).2.2.1 (by decide)⟩,
   (advance_checkpoint_monotonicity exampleState "a" "ch" 0 cbAll
       [Event.publish "ch" 7] (Event.catchUp "a" "ch")).1,
   (advance_checkpoint_monotonicity exampleState "a" "ch" 5 cbAll
       [Event.publish "ch" 7] (Event.catchUp "a" "ch")).2.2.2⟩

theorem catch_up_single_t {P : Type} (cb : String → Notification P → Bool) (cid c : String)
    (s : EngineState P) (k : Nat) (N : Notification P)
    (hk : checkpoint s cid c = k) (hr : read_range s c k = [N])
    (hcb : cb cid N = true) :
    catch_up cb cid c s =
      { s with checkpoints := setK s.checkpoints (cid, c) N.sequence,
               delivered := s.delivered ++ [(cid, N)] } := by
  simp only [catch_up, hk, hr]
  simp [deliverLoop, hcb]

theorem catch_up_single_f {P : Type} (cb : String → Notification P → Bool) (cid c : String)
    (s : EngineState P) (k : Nat) (N : Notification P)
    (hk : checkpoint s cid c = k) (hr : read_range s c k = [N])
    (hcb : cb cid N = false) :
    catch_up cb cid c s =
      { s with checkpoints := setK s.checkpoints (cid, c) k,
               delivered := s.delivered ++ [(cid, N)] } := by
  simp only [catch_up, hk, hr]
  simp [deliverLoop, hcb]

/-- C2: for a pending notification N on channel c with two subscribed
consumers at the same checkpoint, if consumer f's callback fails on N while
consumer o's succeeds, then f is handed N but its checkpoint is not advanced
past N's sequence (it stays put, so the next catch-up hands N to f again),
while o is still handed N and has its checkpoint advanced to N's sequence. -/
theorem consumer_failure_isolation {P : Type} (cb : String → Notification P → Bool)
    (s : EngineState P) (f o c : String) (k : Nat) (N : Notification P)
    (hfo : f ≠ o)
    (hkf : checkpoint s f c = k) (hko : checkpoint s o c = k)
    (hread : read_range s c k = [N])
    (hcbf : cb f N = false) (hcbo : cb o N = true) :
    (catch_up cb f c s).delivered = s.delivered ++ [(f, N)] ∧
    checkpoint (catch_up cb f c s) f c = k ∧
    (catch_up cb o c (catch_up cb f c s)).delivered = s.delivered ++ [(f, N), (o, N)] ∧
    checkpoint (catch_up cb o c (catch_up cb f c s)) o c = N.sequence ∧
    checkpoint (catch_up cb o c (catch_up cb f c s)) f c = k ∧
    (catch_up cb f c (catch_up cb o c (catch_up cb f c s))).delivered =
      (catch_up cb o c (catch_up cb f c s)).delivered ++ [(f, N)] := by
  have hne : ((f : String), c) ≠ ((o : String), c) := by
    intro hx
    exact hfo (congrArg Prod.fst hx)
  have hne2 : ((o : String), c) ≠ ((f : String), c) := by
    intro hx
    exact hfo (congrArg Prod.fst hx).symm
  have e1 := catch_up_single_f cb f c s k N hkf hread hcbf
  have c1 : checkpoint (catch_up cb f c s) f c = k := by
    rw [e1]
    show lookupD (setK s.checkpoints (f, c) k) (f, c) 0 = k
    exact lookupD_setK_self _ _ _ _
  have ho1 : checkpoint (catch_up cb f c s) o c = k := by
    rw [e1]
    show lookupD (setK s.checkpoints (f, c) k) (o, c) 0 = k
    rw [lookupD_setK_ne _ _ _ _ _ hne]
    exact hko
  have hrr1 : read_range (catch_up cb f c s) c k = [N] := by
    rw [e1]
    exact hread
  have e2 := catch_up_single_t cb o c (catch_up cb f c s) k N ho1 hrr1 hcbo
  have c5 : checkpoint (catch_up cb o c (catch_up cb f c s)) f c = k := by
    rw [e2]
    show lookupD (setK (catch_up cb f c s).checkpoints (o, c) N.sequence) (f, c) 0 = k
    rw [lookupD_setK_ne _ _ _ _ _ hne2]
    exact c1
  have hrr2 : read_range (catch_up cb o c (catch_up cb f c s)) c k = [N] := by
    rw [e2]
    exact hrr1
  have e3 := catch_up_single_f cb f c (catch_up cb o c (catch_up cb f c s)) k N c5 hrr2 hcbf
  refine ⟨?_, c1, ?_, ?_, c5, ?_⟩
  · rw [e1]
  · rw [e2, e1]
    simp
  · rw [e2]
    show lookupD (setK (catch_up cb f c s).checkpoints (o, c) N.sequence) (o, c) 0 = N.sequence
    exact lookupD_setK_self _ _ _ _
  · rw [e3]

theorem consumer_failure_isolation_witness :
    ("f" ≠ "o" ∧
      checkpoint exampleState "f" "ch" = 0 ∧ checkpoint exampleState "o" "ch" = 0 ∧
      read_range exampleState "ch" 0 = [⟨1, "ch", 10⟩, ⟨2, "ch", 20⟩]) ∧
    (let s0 : EngineState Nat :=
      { exampleState with checkpoints := [(("f", "ch"), 1), (("o", "ch"), 1)] }
     let cb1 : String → Notification Nat → Bool := fun cid n =>
      if cid = "f" ∧ n.sequence = 2 then false else true
     (catch_up cb1 "f" "ch" s0).delivered = s0.delivered ++ [("f", ⟨2, "ch", 20⟩)] ∧
     checkpoint (catch_up cb1 "f" "ch" s0) "f" "ch" = 1 ∧
     (catch_up cb1 "o" "ch" (catch_up cb1 "f" "ch" s0)).delivered =
       s0.delivered ++ [("f", ⟨2, "ch", 20⟩), ("o", ⟨2, "ch", 20⟩)] ∧
     checkpoint (catch_up cb1 "o" "ch" (catch_up cb1 "f" "ch" s0)) "o" "ch" = 2 ∧
     checkpoint (catch_up cb1 "o" "ch" (catch_up cb1 "f" "ch" s0)) "f" "ch" = 1 ∧
     (catch_up cb1 "f" "ch" (catch_up cb1 "o" "ch" (catch_up cb1 "f" "ch" s0))).delivered =
       (catch_up cb1 "o" "ch" (catch_up cb1 "f" "ch" s0)).delivered ++ [("f", ⟨2, "ch", 20⟩)]) :=
  ⟨⟨by decide, by decide, by decide, by decide⟩,
    consumer_failure_isolation
      (fun cid n => if cid = "f" ∧ n.sequence = 2 then false else true)
      { exampleState with checkpoints := [(("f", "ch"), 1), (("o", "ch"), 1)] }
      "f" "o" "ch" 1 ⟨2, "ch", 20⟩
      (by decide) (by decide) (by decide) (by decide) (by decide) (by decide)⟩

theorem range'_concat_one (s n : Nat) : List.range' s (n+1) = List.range' s n ++ [s+n] := by
  rw [List.range'_concat]
  simp

theorem range'_one_append (k m : Nat) (h : k ≤ m) :
    List.range' 1 k ++ List.range' (k+1) (m - k) = List.range' 1 m := by
  have h2 := List.range'_append 1 k (m - k) 1
  simp only [Nat.one_mul] at h2
  have h3 : 1 + k = k + 1 := by omega
  have h4 : m - k + k = m := by omega
  rw [h3, h4] at h2
  exact h2

theorem filter_lt_range' (m k : Nat) :
    (List.range' 1 m).filter (fun x => decide (k < x)) = List.range' (k+1) (m - k) := by
  induction m with
  | zero => simp
  | succ m ih =>
    rw [range'_concat_one, List.filter_append, ih]
    by_cases h : k < 1 + m
    · have h1 : m + 1 - k = (m - k) + 1 := by omega
      rw [h1, range'_concat_one]
      have h2 : List.filter (fun x => decide (k < x)) [1 + m] = [1 + m] := by
        simp [h]
      rw [h2]
      have h3 : k + 1 + (m - k) = 1 + m := by omega
      rw [h3]
    · have h1 : List.filter (fun x => decide (k < x)) [1 + m] = [] := by
        simp
        omega
      have h2 : m + 1 - k = 0 := by omega
      have h3 : m - k = 0 := by omega
      rw [h1, List.append_nil, h2, h3]

theorem deliverLoop_all_true {P : Type} (cb : Notification P → Bool) :
    ∀ (l : List (Notification P)) (k m : Nat),
    (∀ n ∈ l, cb n = true) →
    l.map (fun n => n.sequence) = List.range' (k+1) m →
    deliverLoop cb l k = (l, k + m) := by
  intro l
  induction l with
  | nil =>
    intro k m _ hseq
    cases m with
    | zero => simp [deliverLoop]
    | succ m' =>
      rw [List.range'_succ (k+1) m' 1] at hseq
      simp at hseq
  | cons n rest ih =>
    intro k m hall hseq
    cases m with
    | zero => simp at hseq
    | succ m' =>
      rw [List.range'_succ (k+1) m' 1] at hseq
      simp only [List.map_cons] at hseq
      injection hseq with h1 h2
      have hcb : cb n = true := hall n (List.mem_cons_self n rest)
      have hrest : ∀ x ∈ rest, cb x = true := fun x hx => hall x (List.mem_cons_of_mem n hx)
      have h2' : rest.map (fun x => x.sequence) = List.range' (n.sequence + 1) m' := by
        rw [h1]
        exact h2
      have hrec := ih n.sequence m' hrest h2'
      simp only [deliverLoop, hcb, if_true, hrec]
      have harith : n.sequence + m' = k + (m' + 1) := by omega
      rw [harith]

theorem deliverLoop_fst_subset {P : Type} (cb : Notification P → Bool) :
    ∀ (l : List (Notification P)) (k : Nat) (n : Notification P),
    n ∈ (deliverLoop cb l k).1 → n ∈ l := by
  intro l
  induction l with
  | nil =>
    intro k n hn
    exact absurd hn (List.not_mem_nil n)
  | cons x rest ih =>
    intro k n hn
    by_cases h : cb x = true
    · simp only [deliverLoop, h, if_true] at hn
      rcases List.mem_cons.mp hn with h1 | h1
      · exact h1 ▸ List.mem_cons_self x rest
      · exact List.mem_cons_of_mem x (ih x.sequence n h1)
    · simp only [deliverLoop, h, if_false] at hn
      rcases List.mem_cons.mp hn with h1 | h1
      · exact h1 ▸ List.mem_cons_self x rest
      · exact absurd h1 (List.not_mem_nil n)

theorem filter_and_map_seq {P : Type} (l : List (Notification P)) (c : String) (k : Nat) :
    (l.filter (fun n => decide (n.channel = c ∧ k < n.sequence))).map (fun n => n.sequence) =
      ((l.filter (fun n => decide (n.channel = c))).map (fun n => n.sequence)).filter
        (fun x => decide (k < x)) := by
  have hfun : (fun (n : Notification P) => decide (n.channel = c ∧ k < n.sequence)) =
      (fun n => decide (n.channel = c) && decide (k < n.sequence)) := by
    funext n
    exact Bool.decide_and _ _
  rw [hfun]
  induction l with
  | nil => rfl
  | cons n t ih =>
    by_cases hc : n.channel = c
    · by_cases hk : k < n.sequence
      · simp [hc, hk, ih]
      · simp [hc, hk, ih]
    · simp [hc, ih]

theorem seq_mem_chanSeqs {P : Type} {s : EngineState P} {c : String} {n : Notification P}
    (hn : n ∈ s.outbox) (hc : n.channel = c) : n.sequence ∈ chanSeqs s c := by
  unfold chanSeqs
  rw [List.mem_map]
  exact ⟨n, List.mem_filter.mpr ⟨hn, by simp [hc]⟩, rfl⟩

theorem read_range_seqs {P : Type} {cb : String → Notification P → Bool}
    {s : EngineState P} (hInv : Inv cb s) (c : String) (k : Nat) :
    (read_range s c k).map (fun n => n.sequence) =
      List.range' (k+1) (max_sequence s c - k) := by
  have h1 : (read_range s c k).map (fun n => n.sequence) =
      (chanSeqs s c).filter (fun x => decide (k < x)) :=
    filter_and_map_seq s.outbox c k
  rw [h1, hInv.seqs c, filter_lt_range']

theorem catch_up_good_eq {P : Type} {cb : String → Notification P → Bool}
    {s : EngineState P} (hInv : Inv cb s) (cid c : String)
    (hall : ∀ n, cb cid n = true) :
    catch_up cb cid c s =
      { s with checkpoints := setK s.checkpoints (cid, c) (max_sequence s c),
               delivered := s.delivered ++
                 (read_range s c (checkpoint s cid c)).map (fun n => (cid, n)) } := by
  have hk := hInv.ckpt_le cid c
  have hd := deliverLoop_all_true (cb cid) (read_range s c (checkpoint s cid c))
    (checkpoint s cid c) (max_sequence s c - checkpoint s cid c)
    (fun n _ => hall n) (read_range_seqs hInv c (checkpoint s cid c))
  have harith : checkpoint s cid c + (max_sequence s c - checkpoint s cid c) =
      max_sequence s c := by omega
  rw [harith] at hd
  simp only [catch_up, hd]

theorem catch_up_delivered_other {P : Type} (cb : String → Notification P → Bool)
    (cid c cid' c' : String) (s : EngineState P) (h : cid ≠ cid' ∨ c ≠ c') :
    deliveredSeqs (catch_up cb cid c s) cid' c' = deliveredSeqs s cid' c' := by
  show ((s.delivered ++ (deliverLoop (cb cid) (read_range s c (checkpoint s cid c))
      (checkpoint s cid c)).1.map (fun n => (cid, n))).filter
        (fun x => decide (x.1 = cid' ∧ x.2.channel = c'))).map (fun x => x.2.sequence) =
    deliveredSeqs s cid' c'
  rw [List.filter_append]
  have hfil : ((deliverLoop (cb cid) (read_range s c (checkpoint s cid c))
      (checkpoint s cid c)).1.map (fun n => (cid, n))).filter
        (fun x => decide (x.1 = cid' ∧ x.2.channel = c')) = [] := by
    rw [List.filter_eq_nil]
    intro a ha
    rw [List.mem_map] at ha
    obtain ⟨n, hn, rfl⟩ := ha
    have hmem := deliverLoop_fst_subset (cb cid) _ _ n hn
    have hch := (mem_read_range hmem).2.1
    simp only [decide_eq_true_eq, not_and]
    intro h1 h2
    rcases h with h3 | h3
    · exact h3 h1
    · exact h3 (hch ▸ h2)
  rw [hfil, List.append_nil]
  rfl

theorem catch_up_checkpoint_other {P : Type} (cb : String → Notification P → Bool)
    (cid c cid' c' : String) (s : EngineState P)
    (h : ((cid : String), c) ≠ ((cid' : String), c')) :
    checkpoint (catch_up cb cid c s) cid' c' = checkpoint s cid' c' := by
  show lookupD (setK s.checkpoints (cid, c) _) (cid', c') 0 = checkpoint s cid' c'
  rw [lookupD_setK_ne _ _ _ _ _ h]
  rfl

theorem inv_init {P : Type} (cb : String → Notification P → Bool) : Inv cb (initState P) :=
  ⟨fun _ => rfl, fun _ _ => Nat.le_refl 0, fun _ _ _ => rfl⟩

theorem inv_publish {P : Type} {cb : String → Notification P → Bool}
    {s : EngineState P} (hInv : Inv cb s) (c : String) (p : P) :
    Inv cb (publish s c p).1 := by
  refine ⟨?_, ?_, ?_⟩
  · intro c'
    by_cases hc : c = c'
    · subst hc
      show ((s.outbox ++ [(⟨max_sequence s c + 1, c, p⟩ : Notification P)]).filter
          (fun n => decide (n.channel = c))).map (fun n => n.sequence) =
        List.range' 1 (lookupD (setK s.maxAssigned c (max_sequence s c + 1)) c 0)
      rw [List.filter_append, List.map_append, lookupD_setK_self]
      have hsingle : (([⟨max_sequence s c + 1, c, p⟩] : List (Notification P)).filter
          (fun n => decide (n.channel = c))).map (fun n => n.sequence) =
          [max_sequence s c + 1] := by simp
      rw [hsingle, range'_concat_one 1 (max_sequence s c)]
      have hseqs := hInv.seqs c
      unfold chanSeqs at hseqs
      rw [hseqs]
      simp [Nat.add_comm]
    · show ((s.outbox ++ [(⟨max_sequence s c + 1, c, p⟩ : Notification P)]).filter
          (fun n => decide (n.channel = c'))).map (fun n => n.sequence) =
        List.range' 1 (lookupD (setK s.maxAssigned c (max_sequence s c + 1)) c' 0)
      rw [List.filter_append, lookupD_setK_ne _ _ _ _ _ hc]
      have hsingle : ([⟨max_sequence s c + 1, c, p⟩] : List (Notification P)).filter
          (fun n => decide (n.channel = c')) = [] := by simp [hc]
      rw [hsingle, List.append_nil]
      exact hInv.seqs c'
  · intro cid c'
    show checkpoint s cid c' ≤ lookupD (setK s.maxAssigned c (max_sequence s c + 1)) c' 0
    by_cases hc : c = c'
    · subst hc
      rw [lookupD_setK_self]
      have := hInv.ckpt_le cid c
      omega
    · rw [lookupD_setK_ne _ _ _ _ _ hc]
      exact hInv.ckpt_le cid c'
  · intro cid c' hall
    exact hInv.good cid c' hall

theorem inv_catch_up {P : Type} {cb : String → Notification P → Bool}
    {s : EngineState P} (hInv : Inv cb s) (cid c : String) :
    Inv cb (catch_up cb cid c s) := by
  refine ⟨?_, ?_, ?_⟩
  · intro c'
    exact hInv.seqs c'
  · intro cid' c'
    by_cases hk : ((cid : String), c) = ((cid' : String), c')
    · have h1 : cid = cid' := congrArg Prod.fst hk
      have h2 : c = c' := congrArg Prod.snd hk
      subst h1
      subst h2
      show lookupD (setK s.checkpoints (cid, c) (deliverLoop (cb cid)
          (read_range s c (checkpoint s cid c)) (checkpoint s cid c)).2) (cid, c) 0 ≤
        max_sequence s c
      rw [lookupD_setK_self]
      rcases deliverLoop_snd_eq_or_mem (cb cid) (read_range s c (checkpoint s cid c))
          (checkpoint s cid c) with h | h
      · rw [h]
        exact hInv.ckpt_le cid c
      · rw [List.mem_map] at h
        obtain ⟨n, hn, hseq⟩ := h
        obtain ⟨hmem, hch, _⟩ := mem_read_range hn
        have hin : n.sequence ∈ chanSeqs s c := seq_mem_chanSeqs hmem hch
        rw [hInv.seqs c, List.mem_range'_1] at hin
        omega
    · rw [catch_up_checkpoint_other cb cid c cid' c' s hk]
      exact hInv.ckpt_le cid' c'
  · intro cid' c' hall
    by_cases hcid : cid = cid'
    · subst hcid
      by_cases hc : c = c'
      · subst hc
        rw [catch_up_good_eq hInv cid c hall]
        show ((s.delivered ++ (read_range s c (checkpoint s cid c)).map
            (fun n => (cid, n))).filter
              (fun x => decide (x.1 = cid ∧ x.2.channel = c))).map (fun x => x.2.sequence) =
          List.range' 1 (lookupD (setK s.checkpoints (cid, c) (max_sequence s c)) (cid, c) 0)
        rw [lookupD_setK_self, List.filter_append, List.map_append]
        have hfil : ((read_range s c (checkpoint s cid c)).map
            (fun n => (cid, n))).filter
              (fun x => decide (x.1 = cid ∧ x.2.channel = c)) =
            (read_range s c (checkpoint s cid c)).map (fun n => (cid, n)) := by
          rw [List.filter_eq_self]
          intro a ha
          rw [List.mem_map] at ha
          obtain ⟨n, hn, rfl⟩ := ha
          have := (mem_read_range hn).2.1
          simp [this]
        rw [hfil]
        have hmap : ((read_range s c (checkpoint s cid c)).map
            (fun n => (cid, n))).map (fun x => x.2.sequence) =
            (read_range s c (checkpoint s cid c)).map (fun n => n.sequence) := by
          rw [List.map_map]
          rfl
        rw [hmap, read_range_seqs hInv c (checkpoint s cid c)]
        have hgood := hInv.good cid c hall
        unfold deliveredSeqs at hgood
        rw [hgood]
        exact range'_one_append _ _ (hInv.ckpt_le cid c)
      · rw [catch_up_delivered_other cb cid c cid c' s (Or.inr hc),
          catch_up_checkpoint_other cb cid c cid c' s
            (fun hx => hc (congrArg Prod.snd hx))]
        exact hInv.good cid c' hall
    · rw [catch_up_delivered_other cb cid c cid' c' s (Or.inl hcid),
        catch_up_checkpoint_other cb cid c cid' c' s
          (fun hx => hcid (congrArg Prod.fst hx))]
      exact hInv.good cid' c' hall

theorem inv_step {P : Type} {cb : String → Notification P → Bool}
    {s : EngineState P} (hInv : Inv cb s) (e : Event P) : Inv cb (step cb s e) := by
  cases e with
  | publish c p => exact inv_publish hInv c p
  | catchUp cid c => exact inv_catch_up hInv cid c

theorem inv_run {P : Type} (cb : String → Notification P → Bool) (t : List (Event P)) :
    Inv cb (run cb t) := by
  suffices h : ∀ (t : List (Event P)) (s : EngineState P), Inv cb s →
      Inv cb (t.foldl (step cb) s) from h t (initState P) (inv_init cb)
  intro t
  induction t with
  | nil => exact fun s hs => hs
  | cons e rest ih =>
    intro s hs
    exact ih (step cb s e) (inv_step hs e)

/-- C1: along any trace of publishes and catch-ups, a consumer registered from
EARLIEST (checkpoint floor 0) whose callback never fails has been handed, on
any given channel, exactly the sequences 1 .. its checkpoint in strictly
increasing order — no gaps, no duplicates — and as soon as it catches up it
has been handed every notification published on that channel exactly once. -/
theorem earliest_consumer_exactly_once {P : Type} (cb : String → Notification P → Bool)
    (cid c : String) (t : List (Event P)) (hall : ∀ n, cb cid n = true) :
    deliveredSeqs (run cb t) cid c = List.range' 1 (checkpoint (run cb t) cid c) ∧
    List.Pairwise (· < ·) (deliveredSeqs (run cb t) cid c) ∧
    (deliveredSeqs (run cb t) cid c).Nodup ∧
    checkpoint (run cb (t ++ [Event.catchUp cid c])) cid c = max_sequence (run cb t) c ∧
    deliveredSeqs (run cb (t ++ [Event.catchUp cid c])) cid c =
      List.range' 1 (max_sequence (run cb t) c) := by
  have hInv := inv_run cb t
  have h1 := hInv.good cid c hall
  have hckpt : checkpoint (run cb (t ++ [Event.catchUp cid c])) cid c
      = max_sequence (run cb t) c := by
    rw [run_append_single]
    show checkpoint (catch_up cb cid c (run cb t)) cid c = max_sequence (run cb t) c
    rw [catch_up_good_eq hInv cid c hall]
    show lookupD (setK (run cb t).checkpoints (cid, c)
      (max_sequence (run cb t) c)) (cid, c) 0 = max_sequence (run cb t) c
    exact lookupD_setK_self _ _ _ _
  refine ⟨h1, ?_, ?_, hckpt, ?_⟩
  · rw [h1]
    exact List.pairwise_lt_range' 1 (checkpoint (run cb t) cid c)
  · rw [h1]
    exact List.nodup_range' 1 _
  · have hInv2 := inv_run cb (t ++ [Event.catchUp cid c])
    have h2 := hInv2.good cid c hall
    rw [h2, hckpt]

theorem earliest_consumer_exactly_once_witness :
    (∀ n : Notification Nat, cbAll "a" n = true) ∧
    (deliveredSeqs (run cbAll [Event.publish "ch" 10, Event.publish "ch" 20,
        Event.catchUp "a" "ch", Event.publish "ch" 30]) "a" "ch" =
      List.range' 1 (checkpoint (run cbAll [Event.publish "ch" 10, Event.publish "ch" 20,
        Event.catchUp "a" "ch", Event.publish "ch" 30]) "a" "ch") ∧
    List.Pairwise (· < ·) (deliveredSeqs (run cbAll [Event.publish "ch" 10,
      Event.publish "ch" 20, Event.catchUp "a" "ch", Event.publish "ch" 30]) "a" "ch") ∧
    (deliveredSeqs (run cbAll [Event.publish "ch" 10, Event.publish "ch" 20,
      Event.catchUp "a" "ch", Event.publish "ch" 30]) "a" "ch").Nodup ∧
    checkpoint (run cbAll ([Event.publish "ch" 10, Event.publish "ch" 20,
        Event.catchUp "a" "ch", Event.publish "ch" 30] ++ [Event.catchUp "a" "ch"])) "a" "ch" =
      max_sequence (run cbAll [Event.publish "ch" 10, Event.publish "ch" 20,
        Event.catchUp "a" "ch", Event.publish "ch" 30]) "ch" ∧
    deliveredSeqs (run cbAll ([Event.publish "ch" 10, Event.publish "ch" 20,
        Event.catchUp "a" "ch", Event.publish "ch" 30] ++ [Event.catchUp "a" "ch"])) "a" "ch" =
      List.range' 1 (max_sequence (run cbAll [Event.publish "ch" 10, Event.publish "ch" 20,
        Event.catchUp "a" "ch", Event.publish "ch" 30]) "ch")) :=
  ⟨fun _ => rfl,
    earliest_consumer_exactly_once cbAll "a" "ch"
      [Event.publish "ch" 10, Event.publish "ch" 20, Event.catchUp "a" "ch",
        Event.publish "ch" 30] (fun _ => rfl)⟩

end PgWatch

namespace ExampleConsumers

/-- C6: AnalyticsConsumer.handle_notification returns normally for every
handler, whatever the dispatched tracking functions do: an exception raised
while dispatching to track_database_change or track_user_event (including
from the handler accessors they call) is caught inside handle_notification
and never re-raised to the caller. -/
theorem analytics_handle_never_raises
    (tdb tue : Handler → Except PyError (List AnalyticsOutput)) (h : Handler) :
    ∃ out, AnalyticsConsumer.handle_notification tdb tue h = Except.ok out := by
  unfold AnalyticsConsumer.handle_notification
  cases hx : (if h.channel = "data_change" then tdb h
      else if h.channel = "user_events" then tue h
      else Except.ok ([] : List AnalyticsOutput)) with
  | error e => exact ⟨_, rfl⟩
  | ok out => exact ⟨out, rfl⟩

/-- C7: for every table_name, create_table_monitor(table_name) yields a
consumer whose consumer_id is table_name + "_monitor", whose channels are
["data_change"], and whose handle_notification emits its monitor output
exactly when the handler's get_table() equals table_name, doing nothing
otherwise. -/
theorem create_table_monitor_spec (t : String) :
    (create_table_monitor t).consumer_id = t ++ "_monitor" ∧
    (create_table_monitor t).channels = ["data_change"] ∧
    ∀ h : Handler,
      (h.get_table = some t →
        (create_table_monitor t).handle h =
          [MonitorOutput.monitor t h.get_action h.get_record_id]) ∧
      (h.get_table ≠ some t → (create_table_monitor t).handle h = []) := by
  refine ⟨rfl, rfl, ?_⟩
  intro h
  constructor
  · intro hh
    simp [create_table_monitor, hh]
  · intro hh
    simp [create_table_monitor, hh]

theorem create_table_monitor_spec_witness :
    (create_table_monitor "users").consumer_id = "users_monitor" ∧
    (create_table_monitor "users").channels = ["data_change"] ∧
    ((⟨"data_change", false, some "users", some "INSERT", some 7, none, none⟩ :
        Handler).get_table = some "users" ∧
      (create_table_monitor "users").handle
          ⟨"data_change", false, some "users", some "INSERT", some 7, none, none⟩ =
        [MonitorOutput.monitor "users" (some "INSERT") (some 7)]) ∧
    ((⟨"data_change", false, some "orders", some "INSERT", some 7, none, none⟩ :
        Handler).get_table ≠ some "users" ∧
      (create_table_monitor "users").handle
          ⟨"data_change", false, some "orders", some "INSERT", some 7, none, none⟩ = []) :=
  ⟨(create_table_monitor_spec "users").1,
   (create_table_monitor_spec "users").2.1,
   ⟨rfl, ((create_table_monitor_spec "users").2.2
      ⟨"data_change", false, some "users", some "INSERT", some 7, none, none⟩).1 rfl⟩,
   ⟨by decide, ((create_table_monitor_spec "users").2.2
      ⟨"data_change", false, some "orders", some "INSERT", some 7, none, none⟩).2 (by decide)⟩⟩

/-- C8: UserChangeConsumer.handle_notification raises on handlers reporting an
auth_user UPDATE whose payload lacks old_data or new_data (the code
dereferences the absent value with `.get`), and returns immediately with no
output for any handler whose table is not auth_user. -/
theorem user_change_update_missing_data (h : Handler) :
    (h.get_table = some "auth_user" → h.get_action = some "UPDATE" →
      (h.get_old_data = none ∨ h.get_new_data = none) →
      ∃ e, UserChangeConsumer.handle_notification h = Except.error e) ∧
    (h.get_table ≠ some "auth_user" →
      UserChangeConsumer.handle_notification h = Except.ok []) := by
  constructor
  · intro ht ha hmiss
    have hcond : ¬ (h.get_table ≠ some "auth_user") := by
      rw [ht]
      simp
    simp only [UserChangeConsumer.handle_notification, if_neg hcond, ha]
    norm_num
    rcases hmiss with hm | hm
    · rw [hm]
      exact ⟨_, rfl⟩
    · cases hod : h.get_old_data with
      | none => exact ⟨_, rfl⟩
      | some d =>
        rw [hm]
        exact ⟨_, rfl⟩
  · intro ht
    simp only [UserChangeConsumer.handle_notification, if_pos ht]

theorem user_change_update_missing_data_witness :
    ((⟨"data_change", false, some "auth_user", some "UPDATE", some 1, none,
        some [("email", "x")]⟩ : Handler).get_table = some "auth_user" ∧
      (⟨"data_change", false, some "auth_user", some "UPDATE", some 1, none,
        some [("email", "x")]⟩ : Handler).get_action = some "UPDATE" ∧
      ((⟨"data_change", false, some "auth_user", some "UPDATE", some 1, none,
        some [("email", "x")]⟩ : Handler).get_old_data = none ∨
       (⟨"data_change", false, some "auth_user", some "UPDATE", some 1, none,
        some [("email", "x")]⟩ : Handler).get_new_data = none) ∧
      (∃ e, UserChangeConsumer.handle_notification
        ⟨"data_change", false, some "auth_user", some "UPDATE", some 1, none,
          some [("email", "x")]⟩ = Except.error e)) ∧
    ((⟨"data_change", false, some "orders", some "UPDATE", some 1, none, none⟩ :
        Handler).get_table ≠ some "auth_user" ∧
      UserChangeConsumer.handle_notification
        ⟨"data_change", false, some "orders", some "UPDATE", some 1, none, none⟩ =
          Except.ok []) :=
  ⟨⟨rfl, rfl, Or.inl rfl,
    (user_change_update_missing_data
      ⟨"data_change", false, some "auth_user", some "UPDATE", some 1, none,
        some [("email", "x")]⟩).1 rfl rfl (Or.inl rfl)⟩,
   ⟨by decide,
    (user_change_update_missing_data
      ⟨"data_change", false, some "orders", some "UPDATE", some 1, none, none⟩).2
        (by decide)⟩⟩

end ExampleConsumers

namespace TestMatrix

theorem mainLoop_map_fst (test : String → String → Bool) (l : List (String × String)) :
    (mainLoop test l).map (fun x => x.1) = l := by
  induction l with
  | nil => rfl
  | cons pr rest ih => simp [mainLoop, ih]

theorem mainLoop_eq_map (test : String → String → Bool) (l : List (String × String)) :
    mainLoop test l = l.map (fun pr => (pr, test pr.1 pr.2)) := by
  induction l with
  | nil => rfl
  | cons pr rest ih => simp [mainLoop, ih]

theorem filter_length_eq_iff {α : Type} (p : α → Bool) (l : List α) :
    (l.filter p).length = l.length ↔ ∀ x ∈ l, p x = true := by
  induction l with
  | nil => simp
  | cons a t ih =>
    rw [List.filter_cons]
    by_cases hx : p a = true
    · simp [hx, ih]
    · rw [if_neg hx]
      constructor
      · intro he
        have hle := List.length_filter_le p t
        simp only [List.length_cons] at he
        omega
      · intro hall
        exact absurd (hall a (List.mem_cons_self a t)) hx

/-- C9: once the initial PostgreSQL check succeeds, main of the test-matrix
harness invokes test_combination exactly once for each of the 10
(python_version, django_version) pairs of MATRIX, in order and without
stopping early on a failure, and returns True exactly when every combination
succeeded. -/
theorem main_runs_full_matrix (pgCheck : Bool) (test : String → String → Bool)
    (hpg : pgCheck = true) :
    (main pgCheck test).1 = MATRIX ∧
    MATRIX.length = 10 ∧ MATRIX.Nodup ∧
    ((main pgCheck test).2 = true ↔ ∀ pr ∈ MATRIX, test pr.1 pr.2 = true) := by
  subst hpg
  have hm : main true test =
      ((mainLoop test MATRIX).map (fun x => x.1),
        decide (((mainLoop test MATRIX).filter (fun x => x.2)).length =
          (mainLoop test MATRIX).length)) := rfl
  rw [hm]
  refine ⟨mainLoop_map_fst test MATRIX, by decide, by decide, ?_⟩
  rw [decide_eq_true_eq, filter_length_eq_iff]
  constructor
  · intro hall pr hpr
    exact hall (pr, test pr.1 pr.2)
      (by
        rw [mainLoop_eq_map, List.mem_map]
        exact ⟨pr, hpr, rfl⟩)
  · intro hall x hx
    rw [mainLoop_eq_map, List.mem_map] at hx
    obtain ⟨pr, hpr, rfl⟩ := hx
    exact hall pr hpr

theorem main_runs_full_matrix_witness :
    (true : Bool) = true ∧
    ((main true (fun _ _ => true)).1 = MATRIX ∧
      MATRIX.length = 10 ∧ MATRIX.Nodup ∧
      ((main true (fun _ _ => true)).2 = true ↔
        ∀ pr ∈ MATRIX, (fun _ _ => true : String → String → Bool) pr.1 pr.2 = true)) :=
  ⟨rfl, main_runs_full_matrix true (fun _ _ => true) rfl⟩

/-- C10: run_cmd never propagates subprocess.CalledProcessError: it returns a
True triple carrying the command's stdout and stderr when the command exits
zero, and a False triple carrying the captured stdout and stderr of the
failure — or empty strings when output was not captured — when the command
exits nonzero. -/
theorem runCmd_catches_subprocess_error (world : String → Int × String × String)
    (cmd : String) (capture : Bool) :
    ((world cmd).1 = 0 →
      runCmd world cmd capture =
        (true, if capture then some (world cmd).2.1 else none,
          if capture then some (world cmd).2.2 else none)) ∧
    ((world cmd).1 ≠ 0 →
      runCmd world cmd capture =
        (false, if capture then some (world cmd).2.1 else some "",
          if capture then some (world cmd).2.2 else some "")) ∧
    ((runCmd world cmd capture).1 = true ↔ (world cmd).1 = 0) := by
  by_cases h : (world cmd).1 = 0
  · have hr : runCmd world cmd capture =
        (true, if capture then some (world cmd).2.1 else none,
          if capture then some (world cmd).2.2 else none) := by
      simp only [runCmd, subprocess_run, if_pos h]
    refine ⟨fun _ => hr, fun hne => absurd h hne, ?_⟩
    rw [hr]
    simp [h]
  · have hr : runCmd world cmd capture =
        (false, if capture then some (world cmd).2.1 else some "",
          if capture then some (world cmd).2.2 else some "") := by
      simp only [runCmd, subprocess_run, if_neg h]
      by_cases hc : capture
      · simp [hc]
      · simp [hc]
    refine ⟨fun h0 => absurd h0 h, fun _ => hr, ?_⟩
    rw [hr]
    simp [h]

theorem runCmd_catches_subprocess_error_witness :
    ((fun _ => ((0 : Int), "ok", "err")) "x" : Int × String × String).1 = 0 ∧
    runCmd (fun _ => ((0 : Int), "ok", "err")) "x" true = (true, some "ok", some "err") :=
  ⟨rfl,
    (runCmd_catches_subprocess_error (fun _ => ((0 : Int), "ok", "err")) "x" true).1 rfl⟩

end TestMatrix
